import Mathlib

/-!
Verification of the FiveMDevKit native-catalog pipeline.

The repository ships two revisions of the same VS Code extension source
(`src/src/extension.ts` and an unnamed sibling file, called V0 below).
Both flatten a nested natives JSON catalog into a list of records and
build completion and definition providers from it.  This file embeds the
catalog normalizer, the casing transform, the type mapper, the
return-type formatter, the snippet builder, the catalog load step of
`activate`, and the definition provider's lookup, and proves the stated
properties about them.

Conventions of the embedding:
  - JSON objects are association lists in document (insertion) order.
  - An absent (`undefined`) field is `Option.none`; a JSON `null` entry
    value is also `none`.
  - The dynamic `results` field (string | string[] | undefined) is
    `Option (Sum String (List String))`.
  - JavaScript `toUpperCase` / `toLowerCase` are the per-character ASCII
    maps `Char.toUpper` / `Char.toLower` (all inputs of interest are
    ASCII).
  - A thrown exception is `Except.error`.
-/

namespace FiveMDevKit

/-- A native parameter: the `FiveMNativeParam` interface, `{name, type}`. -/
structure FiveMNativeParam where
  name : String
  type : String
deriving DecidableEq

/-- The `results` field: `string | string[] | undefined`. -/
abbrev FiveMNativeResults := Option (Sum String (List String))

/-- A normalized native record: the `FiveMNative` interface.  All fields
but `name` are optional in the TypeScript interface. -/
structure FiveMNative where
  name : String
  hash : Option String := none
  params : Option (List FiveMNativeParam) := none
  results : FiveMNativeResults := none
  description : Option String := none
  module : Option String := none
deriving DecidableEq

/-- A raw native-definition object from the JSON file; every field may be
absent. -/
structure RawNativeDef where
  name : Option String := none
  params : Option (List FiveMNativeParam) := none
  results : FiveMNativeResults := none
  description : Option String := none
deriving DecidableEq

/-- A raw module object: hash key / value pairs in document order.  The
value is `none` when the JSON value is `null`. -/
abbrev RawModule := List (String × Option RawNativeDef)

/-- The raw catalog: module name / module object pairs in document order. -/
abbrev RawCatalog := List (String × RawModule)

/-- The body of `parseNatives`' inner loop: the `if (nativeDef &&
nativeDef.name)` guard followed by `result.push({...})`.  A present empty
string is falsy in JavaScript, so it fails the guard. -/
def pushEntry (moduleName : String) (result : List FiveMNative)
    (e : String × Option RawNativeDef) : List FiveMNative :=
  match e.2 with
  | none => result
  | some nativeDef =>
    match nativeDef.name with
    | none => result
    | some n =>
      if n = "" then result
      else
        result ++ [{ name := n
                     hash := some e.1
                     params := some (nativeDef.params.getD [])
                     results := nativeDef.results
                     description := some (nativeDef.description.getD "")
                     module := some moduleName }]

/-- The function parseNatives (identical in both revisions): iterate the modules in
document order, and within each module iterate the entries in document
order, pushing the record for each entry that passes the name guard. -/
def parseNatives (nativesData : RawCatalog) : List FiveMNative :=
  nativesData.foldl (fun result m => m.2.foldl (pushEntry m.1) result) []

/-- The record the specification says normalization emits for one raw
entry: `none` when the entry is skipped (value `null`, or `name` absent
or empty), otherwise the record that copies `name`, uses the entry key as
`hash`, the enclosing module key as `module`, defaults `params` to `[]`
and `description` to `""`, and passes `results` through unchanged. -/
def specEntry (moduleName : String) (e : String × Option RawNativeDef) :
    Option FiveMNative :=
  match e.2 with
  | none => none
  | some nativeDef =>
    match nativeDef.name with
    | none => none
    | some n =>
      if n = "" then none
      else
        some { name := n
               hash := some e.1
               params := some (nativeDef.params.getD [])
               results := nativeDef.results
               description := some (nativeDef.description.getD "")
               module := some moduleName }

/-- Normalization as the specification describes it: per module, the
records of its named entries in document order, modules concatenated in
document order. -/
def specNormalize (raw : RawCatalog) : List FiveMNative :=
  (raw.map (fun m => m.2.filterMap (specEntry m.1))).flatten

/-- Whether a raw entry has a present, non-empty `name` (and a non-null
value). -/
def isNamedEntry (e : String × Option RawNativeDef) : Bool :=
  match e.2 with
  | none => false
  | some nativeDef =>
    match nativeDef.name with
    | none => false
    | some n => n != ""

/-- The number of raw entries with a non-empty name, across all modules. -/
def countNamed (raw : RawCatalog) : Nat :=
  (raw.map (fun m => (m.2.filter isNamedEntry).length)).sum

/-- The raw catalog with the unnamed entries removed. -/
def filterNamed (raw : RawCatalog) : RawCatalog :=
  raw.map (fun m => (m.1, m.2.filter isNamedEntry))

lemma pushEntry_eq_append (m : String) (result : List FiveMNative)
    (e : String × Option RawNativeDef) :
    pushEntry m result e = result ++ (specEntry m e).toList := by
  obtain ⟨k, v⟩ := e
  cases v with
  | none => simp [pushEntry, specEntry]
  | some d =>
    obtain ⟨dn, dp, dr, dd⟩ := d
    cases dn with
    | none => simp [pushEntry, specEntry]
    | some n =>
      by_cases hn : n = "" <;> simp [pushEntry, specEntry, hn]

lemma foldl_pushEntry_eq (m : String) (entries : RawModule) :
    ∀ acc : List FiveMNative,
      entries.foldl (pushEntry m) acc = acc ++ entries.filterMap (specEntry m) := by
  induction entries with
  | nil => intro acc; simp
  | cons e rest ih =>
    intro acc
    rw [List.foldl_cons, pushEntry_eq_append, ih]
    cases hs : specEntry m e <;> simp [List.filterMap_cons, hs]

lemma parseNatives_foldl_eq (raw : RawCatalog) :
    ∀ acc : List FiveMNative,
      raw.foldl (fun result m => m.2.foldl (pushEntry m.1) result) acc =
        acc ++ specNormalize raw := by
  induction raw with
  | nil => intro acc; simp [specNormalize]
  | cons m rest ih =>
    intro acc
    rw [List.foldl_cons, ih, foldl_pushEntry_eq]
    simp [specNormalize, List.append_assoc]

lemma parseNatives_eq_specNormalize (raw : RawCatalog) :
    parseNatives raw = specNormalize raw := by
  simpa using parseNatives_foldl_eq raw []

lemma specEntry_isSome (m : String) (e : String × Option RawNativeDef) :
    (specEntry m e).isSome = isNamedEntry e := by
  obtain ⟨k, v⟩ := e
  cases v with
  | none => rfl
  | some d =>
    obtain ⟨dn, dp, dr, dd⟩ := d
    cases dn with
    | none => rfl
    | some n =>
      by_cases hn : n = "" <;> simp [specEntry, isNamedEntry, hn]

lemma isNamedEntry_of_specEntry_none (m : String)
    (e : String × Option RawNativeDef) (hs : specEntry m e = none) :
    isNamedEntry e = false := by
  rw [← specEntry_isSome m e, hs]
  rfl

lemma isNamedEntry_of_specEntry_some (m : String)
    (e : String × Option RawNativeDef) (r : FiveMNative)
    (hs : specEntry m e = some r) :
    isNamedEntry e = true := by
  rw [← specEntry_isSome m e, hs]
  rfl

lemma length_filterMap_specEntry (m : String) (entries : RawModule) :
    (entries.filterMap (specEntry m)).length =
      (entries.filter isNamedEntry).length := by
  induction entries with
  | nil => rfl
  | cons e rest ih =>
    cases hs : specEntry m e with
    | none =>
      have hn := isNamedEntry_of_specEntry_none m e hs
      simp [List.filterMap_cons, hs, List.filter_cons, hn, ih]
    | some r =>
      have hn := isNamedEntry_of_specEntry_some m e r hs
      simp [List.filterMap_cons, hs, List.filter_cons, hn, ih]

lemma filterMap_specEntry_filter (m : String) (entries : RawModule) :
    (entries.filter isNamedEntry).filterMap (specEntry m) =
      entries.filterMap (specEntry m) := by
  induction entries with
  | nil => rfl
  | cons e rest ih =>
    cases hs : specEntry m e with
    | none =>
      have hn := isNamedEntry_of_specEntry_none m e hs
      simp [List.filter_cons, hn, List.filterMap_cons, hs, ih]
    | some r =>
      have hn := isNamedEntry_of_specEntry_some m e r hs
      simp [List.filter_cons, hn, List.filterMap_cons, hs, ih]

/-- Claim C1: for every raw catalog, normalization emits, for each raw
entry with a present non-empty name, a record that copies `name`, uses
the entry's own key as `hash` and the enclosing module key as `module`,
defaults `params` to the empty sequence and `description` to the empty
string when absent, and passes `results` through unchanged; the records
appear in document order (modules in document order, entries within each
module in document order). -/
theorem parseNatives_normalizes (raw : RawCatalog) :
    parseNatives raw = (raw.map (fun m => m.2.filterMap (specEntry m.1))).flatten :=
  parseNatives_eq_specNormalize raw

/-- Claim C2: raw entries with an absent or empty name are excluded from
the normalized list (removing them first changes nothing), and the length
of the normalized list equals the number of raw entries with a non-empty
name across all modules. -/
theorem parseNatives_count (raw : RawCatalog) :
    parseNatives (filterNamed raw) = parseNatives raw ∧
      (parseNatives raw).length = countNamed raw := by
  constructor
  · rw [parseNatives_eq_specNormalize, parseNatives_eq_specNormalize]
    unfold specNormalize filterNamed
    rw [List.map_map]
    congr 1
    apply List.map_congr_left
    intro m _
    exact filterMap_specEntry_filter m.1 m.2
  · rw [parseNatives_eq_specNormalize]
    unfold specNormalize countNamed
    rw [List.length_flatten, List.map_map]
    congr 1
    apply List.map_congr_left
    intro m _
    exact length_filterMap_specEntry m.1 m.2

/-- ASCII lowering of a whole string, character by character: JavaScript
`String.prototype.toLowerCase` on the inputs of interest. -/
def lowerString (s : String) : String :=
  String.mk (s.data.map Char.toLower)

/-- JavaScript `String.prototype.split` with the single-character
separator `_`, over the character list. -/
def splitUnderscores : List Char → List (List Char)
  | [] => [[]]
  | c :: rest =>
    match splitUnderscores rest with
    | [] => [[]]
    | chunk :: chunks =>
      if c = '_' then [] :: chunk :: chunks else (c :: chunk) :: chunks

/-- One chunk of the upper-snake branch of `toPascalCase`:
`chunk.charAt(0).toUpperCase() + chunk.slice(1).toLowerCase()`. -/
def capitalizeChunk : List Char → List Char
  | [] => []
  | c :: rest => Char.toUpper c :: rest.map Char.toLower

/-- The expression `s.charAt(0).toUpperCase() + s.slice(1)`: uppercase only the first
character, leave the remainder untouched. -/
def upperFirst (s : String) : String :=
  match s.data with
  | [] => ""
  | c :: rest => String.mk (Char.toUpper c :: rest)

/-- The regex test `/^[A-Z0-9_]+$/.test(s)`: one or more characters, each
an uppercase ASCII letter, an ASCII digit, or an underscore. -/
def isUpperSnake (s : String) : Bool :=
  !s.data.isEmpty && s.data.all (fun c => c.isUpper || c.isDigit || c == '_')

/-- The function toPascalCase from src/src/extension.ts: on the upper-snake branch,
split on underscores, capitalize each chunk and lowercase its remainder,
and join with no separator; otherwise uppercase only the first letter. -/
def toPascalCase (s : String) : String :=
  if isUpperSnake s then
    String.join ((splitUnderscores s.data).map (fun chunk => String.mk (capitalizeChunk chunk)))
  else
    upperFirst s

/-- The upper-snake branch as the specification words it: the input split
on underscore, each chunk's first character uppercased and the remainder
lowercased, concatenated with no separator (an empty chunk contributes
nothing). -/
def snakeDisplayName (s : String) : String :=
  String.join ((splitUnderscores s.data).map (fun chunk =>
    match chunk with
    | [] => ""
    | c :: rest => String.mk (Char.toUpper c :: rest.map Char.toLower)))

lemma capitalizeChunk_spec (chunk : List Char) :
    String.mk (capitalizeChunk chunk) =
      (match chunk with
       | [] => ""
       | c :: rest => String.mk (Char.toUpper c :: rest.map Char.toLower)) := by
  cases chunk <;> rfl

lemma toPascalCase_eq_branches (s : String) :
    toPascalCase s = if isUpperSnake s then snakeDisplayName s else upperFirst s := by
  unfold toPascalCase snakeDisplayName
  by_cases h : isUpperSnake s <;> simp [h, capitalizeChunk_spec]

/-- Claim C4: `toPascalCase` is a pure total function on strings: on
inputs consisting entirely of one or more uppercase letters, digits and
underscores it splits on underscore, uppercases each chunk's first
character, lowercases the remainder and concatenates; on every other
input it uppercases only the first character and leaves the rest
untouched; and the three documented examples hold. -/
theorem toPascalCase_spec :
    (∀ s : String,
        toPascalCase s = if isUpperSnake s then snakeDisplayName s else upperFirst s) ∧
      toPascalCase "TRIGGER_MUSIC_EVENT" = "TriggerMusicEvent" ∧
      toPascalCase "triggerEvent" = "TriggerEvent" ∧
      toPascalCase "A_B" = "AB" :=
  ⟨toPascalCase_eq_branches, by decide, by decide, by decide⟩

/-- The function mapType from src/src/extension.ts: a switch on
`type.toLowerCase()` mapping the C-ish primitive names to
JavaScript-friendly ones, defaulting to the lowercased input. -/
def mapType (type : String) : String :=
  if lowerString type = "char*" then "string"
  else if lowerString type = "float" then "number"
  else if lowerString type = "int" then "number"
  else if lowerString type = "bool" then "boolean"
  else lowerString type

lemma mapType_lower_congr (s t : String) (h : lowerString s = lowerString t) :
    mapType s = mapType t := by
  simp only [mapType, h]

lemma mapType_default (s : String)
    (h : lowerString s ∉ (["char*", "float", "int", "bool"] : List String)) :
    mapType s = lowerString s := by
  simp only [List.mem_cons, List.not_mem_nil, or_false, not_or] at h
  obtain ⟨h1, h2, h3, h4⟩ := h
  simp [mapType, h1, h2, h3, h4]

lemma mapType_charPtr (s : String) (h : lowerString s = "char*") :
    mapType s = "string" := by
  unfold mapType
  rw [h]
  decide

lemma mapType_float (s : String) (h : lowerString s = "float") :
    mapType s = "number" := by
  unfold mapType
  rw [h]
  decide

lemma mapType_int (s : String) (h : lowerString s = "int") :
    mapType s = "number" := by
  unfold mapType
  rw [h]
  decide

lemma mapType_bool (s : String) (h : lowerString s = "bool") :
    mapType s = "boolean" := by
  unfold mapType
  rw [h]
  decide

/-- Claim C7: `mapType` is case-insensitive on its input; whenever the
whole case-folded input is `char*` it returns `string`, whenever it is
`float` or `int` it returns `number`, whenever it is `bool` it returns
`boolean`, and it lowercases any other input; the four documented
examples hold, as does the table entry for `int` itself. -/
theorem mapType_spec :
    (∀ s t : String, lowerString s = lowerString t → mapType s = mapType t) ∧
      (∀ s : String, lowerString s = "char*" → mapType s = "string") ∧
      (∀ s : String, lowerString s = "float" → mapType s = "number") ∧
      (∀ s : String, lowerString s = "int" → mapType s = "number") ∧
      (∀ s : String, lowerString s = "bool" → mapType s = "boolean") ∧
      (∀ s : String, lowerString s ∉ (["char*", "float", "int", "bool"] : List String) →
        mapType s = lowerString s) ∧
      mapType "char*" = "string" ∧
      mapType "FLOAT" = "number" ∧
      mapType "int" = "number" ∧
      mapType "Bool" = "boolean" ∧
      mapType "Vector3" = "vector3" :=
  ⟨mapType_lower_congr, mapType_charPtr, mapType_float, mapType_int, mapType_bool,
   mapType_default, by decide, by decide, by decide, by decide, by decide⟩

/-- Witness for C7: the hypotheses of `mapType_spec` discharged at
concrete inputs, one per table row. -/
theorem mapType_spec_witness :
    mapType "FLOAT" = mapType "float" ∧
      mapType "Char*" = "string" ∧
      mapType "Float" = "number" ∧
      mapType "INT" = "number" ∧
      mapType "BOOL" = "boolean" ∧
      mapType "Vector3" = lowerString "Vector3" :=
  ⟨mapType_spec.1 "FLOAT" "float" (by decide),
   mapType_spec.2.1 "Char*" (by decide),
   mapType_spec.2.2.1 "Float" (by decide),
   mapType_spec.2.2.2.1 "INT" (by decide),
   mapType_spec.2.2.2.2.1 "BOOL" (by decide),
   mapType_spec.2.2.2.2.2.1 "Vector3" (by decide)⟩

/-- JavaScript `Array.prototype.join` with a separator string. -/
def joinSep (sep : String) : List String → String
  | [] => ""
  | [x] => x
  | x :: xs => x ++ sep ++ joinSep sep xs

/-- The return-type text of `provideCompletionItems` in
src/src/extension.ts: `Array.isArray(results) ? results.join(" | ") :
results || "void"`.  A single string that is empty is falsy, so the
`|| "void"` default fires for it as well as for an absent `results`. -/
def formatReturns : FiveMNativeResults → String
  | some (Sum.inr xs) => joinSep " | " xs
  | some (Sum.inl s) => if s = "" then "void" else s
  | none => "void"

/-- The return-type text exactly as claim C5 words it: a sequence is
joined with " | ", a single string is used as-is, and an absent
`results` yields the literal "void". -/
def claimReturnText : FiveMNativeResults → String
  | some (Sum.inr xs) => joinSep " | " xs
  | some (Sum.inl s) => s
  | none => "void"

/-- Counterexample to claim C5: when `results` is the single empty
string, the formatter produces "void", not the string itself as the
claim requires. -/
theorem formatReturns_empty_string_cex :
    formatReturns (some (Sum.inl "")) = "void" ∧
      claimReturnText (some (Sum.inl "")) = "" ∧
      formatReturns (some (Sum.inl "")) ≠ claimReturnText (some (Sum.inl "")) := by
  exact ⟨rfl, rfl, by decide⟩

/-- Claim C5 as amended: the formatter in src/src/extension.ts matches
the claimed return-type text for every `results` value other than the
single empty string, and maps that one value to "void". -/
theorem formatReturns_amended (r : FiveMNativeResults)
    (h : r ≠ some (Sum.inl "")) :
    formatReturns r = claimReturnText r := by
  match r with
  | none => rfl
  | some (Sum.inr xs) => rfl
  | some (Sum.inl s) =>
    have hs : s ≠ "" := by
      intro hs
      exact h (by rw [hs])
    simp [formatReturns, claimReturnText, hs]

/-- Witness for the amended C5: the theorem applied at the documented
example value `results = "BOOL"`. -/
theorem formatReturns_amended_witness :
    formatReturns (some (Sum.inl "BOOL")) = claimReturnText (some (Sum.inl "BOOL")) :=
  formatReturns_amended (some (Sum.inl "BOOL")) (by decide)

/-- Claim C9: with `results` present but an empty sequence, the
formatter in src/src/extension.ts produces the empty string, not "void";
a sequence always yields the " | "-join of its elements (so the "void"
default never fires for a sequence), and the default fires exactly for
an absent `results` or a falsy (empty) single string. -/
theorem formatReturns_empty_seq :
    formatReturns (some (Sum.inr [])) = "" ∧
      ("" : String) ≠ "void" ∧
      (∀ xs : List String, formatReturns (some (Sum.inr xs)) = joinSep " | " xs) ∧
      (∀ s : String, formatReturns (some (Sum.inl s)) = if s = "" then "void" else s) ∧
      formatReturns none = "void" :=
  ⟨rfl, by decide, fun xs => rfl, fun s => rfl, rfl⟩

/-- One piece of a built snippet: literal text appended with
`appendText`, or an editable placeholder appended with
`appendPlaceholder`. -/
inductive SnippetPiece where
  | text (s : String)
  | placeholder (s : String)
deriving DecidableEq

/-- The pieces the parameter loop of src/src/extension.ts appends: for
each parameter a newline-and-indent, then the placeholder
`name: mappedType`, then a comma after every parameter but the last. -/
def paramPieces : List FiveMNativeParam → List SnippetPiece
  | [] => []
  | [p] => [.text "\n\t", .placeholder (p.name ++ ": " ++ mapType p.type)]
  | p :: rest =>
    [.text "\n\t", .placeholder (p.name ++ ": " ++ mapType p.type), .text ","] ++
      paramPieces rest

/-- The snippet `provideCompletionItems` in src/src/extension.ts builds:
start with the PascalCase name and an opening parenthesis; with
parameters, run the parameter loop and close with a newline and `)`;
without, close immediately; finally append `;`. -/
def buildSnippet (native : FiveMNative) : List SnippetPiece :=
  [.text (toPascalCase native.name ++ "(")] ++
    (match native.params with
     | some ps => if 0 < ps.length then paramPieces ps ++ [.text "\n)"] else [.text ")"]
     | none => [.text ")"]) ++
    [.text ";"]

/-- The parameter block as claim C6 words it: each parameter a distinct
placeholder of its name plus mapped type, each on its own line,
placeholders separated by commas. -/
def claimParamPieces (ps : List FiveMNativeParam) : List SnippetPiece :=
  (List.intersperse ([SnippetPiece.text ","])
      (ps.map (fun p =>
        [SnippetPiece.text "\n\t",
         SnippetPiece.placeholder (p.name ++ ": " ++ mapType p.type)]))).flatten

/-- The insert template as claim C6 words it, for the formatter of
src/src/extension.ts. -/
def claimSnippet (native : FiveMNative) : List SnippetPiece :=
  [.text (toPascalCase native.name ++ "(")] ++
    (match native.params with
     | some (p :: ps) => claimParamPieces (p :: ps) ++ [.text "\n)"]
     | _ => [.text ")"]) ++
    [.text ";"]

lemma paramPieces_eq_claim (ps : List FiveMNativeParam) :
    paramPieces ps = claimParamPieces ps := by
  induction ps with
  | nil => rfl
  | cons p rest ih =>
    cases rest with
    | nil => rfl
    | cons q rest2 =>
      simp only [paramPieces, ih]
      simp [claimParamPieces, List.intersperse]

/-- Claim C6 as amended for the provider in src/src/extension.ts: the
insert template starts with the display label and an opening
parenthesis, closes it immediately when there are no parameters, and
otherwise lists each parameter as a placeholder of its name plus mapped
type on its own line, comma-separated, followed by a closing parenthesis;
a statement terminator ends the template either way. -/
theorem buildSnippet_spec (native : FiveMNative) :
    buildSnippet native = claimSnippet native := by
  unfold buildSnippet claimSnippet
  cases hp : native.params with
  | none => rfl
  | some ps =>
    cases ps with
    | nil => rfl
    | cons p rest => simp [paramPieces_eq_claim]

/-- The insert template construction of the unnamed earlier revision
(part_000): set only when there is at least one parameter; it starts with
the raw (untransformed) name, its placeholders carry only the parameter
names separated by comma-space on a single line, and it has no statement
terminator. -/
def paramPiecesV0 : List FiveMNativeParam → List SnippetPiece
  | [] => []
  | [p] => [.placeholder p.name]
  | p :: rest => [.placeholder p.name, .text ", "] ++ paramPiecesV0 rest

/-- The optional insert template of the unnamed earlier revision: `none`
when the record has no parameters (the completion then has no custom
insert text at all). -/
def buildSnippetV0 (native : FiveMNative) : Option (List SnippetPiece) :=
  match native.params with
  | some ps =>
    if 0 < ps.length then
      some ([.text (native.name ++ "(")] ++ paramPiecesV0 ps ++ [.text ")"])
    else none
  | none => none

/-- Counterexample to claim C6: in the unnamed revision (part_000), the
record for `TRIGGER_MUSIC_EVENT` gets a template that begins with the
raw name rather than the display label, whose placeholder has no type
hint and no line of its own, and which lacks a statement terminator; and
a zero-parameter record gets no insert template at all. -/
theorem buildSnippetV0_cex :
    buildSnippetV0
        { name := "TRIGGER_MUSIC_EVENT",
          params := some [{ name := "eventName", type := "char*" }] } =
      some [SnippetPiece.text "TRIGGER_MUSIC_EVENT(",
            SnippetPiece.placeholder "eventName",
            SnippetPiece.text ")"] ∧
      toPascalCase "TRIGGER_MUSIC_EVENT" ++ "(" ≠ "TRIGGER_MUSIC_EVENT(" ∧
      buildSnippetV0 { name := "GET_GAME_TIMER", params := some [] } = none := by
  exact ⟨rfl, by decide, rfl⟩

/-- What the catalog load step of `activate` leaves behind: the record
list plus the user-facing warning and error messages it showed. -/
structure LoadOutcome where
  natives : List FiveMNative
  warnings : List String
  errors : List String
deriving DecidableEq

/-- The catalog load of `activate` in src/src/extension.ts.
`fileExists` is the result of `fs.existsSync`; `readAndParse` is the
outcome of `readFileSync` + `JSON.parse`, with `Except.error` standing
for a throw.  The `try`/`catch` turns a throw into an error message and
an empty catalog, so the load itself never throws. -/
def loadCatalog (fileExists : Bool) (readAndParse : Except String RawCatalog) :
    Except String LoadOutcome :=
  if fileExists then
    match readAndParse with
    | Except.ok parsed => Except.ok ⟨parseNatives parsed, [], []⟩
    | Except.error _ => Except.ok ⟨[], [], ["Failed to parse natives.json"]⟩
  else
    Except.ok ⟨[], ["natives.json not found in the data folder."], []⟩

/-- The catalog load of `activate` in the unnamed earlier revision
(part_000): the read and parse are not wrapped in `try`/`catch`, so a
parse throw propagates out of the load. -/
def loadCatalogV0 (fileExists : Bool) (readAndParse : Except String RawCatalog) :
    Except String LoadOutcome :=
  if fileExists then
    match readAndParse with
    | Except.ok parsed => Except.ok ⟨parseNatives parsed, [], []⟩
    | Except.error e => Except.error e
  else
    Except.ok ⟨[],
      ["FiveM natives.json not found. Please run \"npm run fetch-natives\" or place the file in the data folder."],
      []⟩

/-- Counterexample to claim C3: in the unnamed revision (part_000), a
catalog file that is present but fails to parse makes the load itself
throw — the exception propagates instead of being reported as an error
with an empty catalog. -/
theorem loadCatalogV0_parse_error_cex :
    loadCatalogV0 true (Except.error "SyntaxError: Unexpected token") =
      Except.error "SyntaxError: Unexpected token" ∧
      (loadCatalogV0 true (Except.error "SyntaxError: Unexpected token")).isOk = false := by
  exact ⟨rfl, rfl⟩

/-- Claim C3 as amended: in src/src/extension.ts, a missing catalog file
yields an empty catalog and a warning, an unparseable file yields an
empty catalog and an error message, a parsed file yields its normalized
records, and no exception ever escapes the load; in the unnamed earlier
revision the missing-file case likewise yields a warning and an empty
catalog (but the unparseable case, per the counterexample, throws). -/
theorem loadCatalog_spec :
    (∀ p : Except String RawCatalog,
        loadCatalog false p =
          Except.ok ⟨[], ["natives.json not found in the data folder."], []⟩) ∧
      (∀ e : String,
        loadCatalog true (Except.error e) =
          Except.ok ⟨[], [], ["Failed to parse natives.json"]⟩) ∧
      (∀ raw : RawCatalog,
        loadCatalog true (Except.ok raw) = Except.ok ⟨parseNatives raw, [], []⟩) ∧
      (∀ (b : Bool) (p : Except String RawCatalog), (loadCatalog b p).isOk = true) ∧
      (∀ p : Except String RawCatalog,
        loadCatalogV0 false p =
          Except.ok ⟨[],
            ["FiveM natives.json not found. Please run \"npm run fetch-natives\" or place the file in the data folder."],
            []⟩) := by
  refine ⟨fun p => rfl, fun e => rfl, fun raw => rfl, ?_, fun p => rfl⟩
  intro b p
  cases b with
  | false => rfl
  | true => cases p <;> rfl

/-- The case-insensitive name comparison of the definition provider's
lookup: `n.name.toLowerCase() === word.toLowerCase()`. -/
def nameMatches (word : String) (n : FiveMNative) : Bool :=
  lowerString n.name == lowerString word

/-- The `natives.find(...)` lookup of `provideDefinition` in the unnamed
revision (part_000): the first record, in catalog order, whose name
matches the query case-insensitively. -/
def findByName (natives : List FiveMNative) (word : String) : Option FiveMNative :=
  natives.find? (nameMatches word)

lemma find?_eq_some_first {α : Type} (p : α → Bool) :
    ∀ (l : List α) (a : α),
      l.find? p = some a ↔
        ∃ pre post, l = pre ++ a :: post ∧ p a = true ∧ ∀ x ∈ pre, p x = false := by
  intro l
  induction l with
  | nil =>
    intro a
    constructor
    · intro h; simp [List.find?] at h
    · rintro ⟨pre, post, hl, -, -⟩
      exact absurd hl (by simp)
  | cons b rest ih =>
    intro a
    by_cases hb : p b = true
    · rw [List.find?_cons_of_pos rest hb]
      constructor
      · intro h
        obtain rfl : b = a := by injection h
        exact ⟨[], rest, rfl, hb, by intro x hx; simp at hx⟩
      · rintro ⟨pre, post, hl, hpa, hpre⟩
        cases pre with
        | nil =>
          simp only [List.nil_append, List.cons.injEq] at hl
          rw [hl.1]
        | cons c pre2 =>
          simp only [List.cons_append, List.cons.injEq] at hl
          have hcf := hpre c (by simp)
          rw [hl.1] at hb
          simp [hcf] at hb
    · have hbf : p b = false := by
        cases hpb : p b with
        | false => rfl
        | true => exact absurd hpb hb
      rw [List.find?_cons_of_neg rest hb]
      rw [ih a]
      constructor
      · rintro ⟨pre, post, hl, hpa, hpre⟩
        refine ⟨b :: pre, post, by rw [List.cons_append, hl], hpa, ?_⟩
        intro x hx
        rcases List.mem_cons.mp hx with hxb | hxp
        · rw [hxb]; exact hbf
        · exact hpre x hxp
      · rintro ⟨pre, post, hl, hpa, hpre⟩
        cases pre with
        | nil =>
          simp only [List.nil_append, List.cons.injEq] at hl
          rw [hl.1] at hbf
          simp [hpa] at hbf
        | cons c pre2 =>
          simp only [List.cons_append, List.cons.injEq] at hl
          refine ⟨pre2, post, hl.2, hpa, ?_⟩
          intro x hx
          exact hpre x (List.mem_cons_of_mem c hx)

/-- A two-module raw catalog whose two entries carry the same name up to
case: the scenario of claim C8. -/
def twoFooCatalog : RawCatalog :=
  [("moduleA", [("0xAA11", some { name := some "Foo" })]),
   ("moduleB", [("0xBB22", some { name := some "FOO" })])]

/-- Claim C8: the exact-name lookup compares names to the query
case-insensitively in catalog order: it returns `none` exactly when no
record matches, a returned record is the first match (everything before
it fails the comparison), and on the two same-named-up-to-case records of
`twoFooCatalog` the query "foo" resolves to the record of the earlier
module. -/
theorem findByName_spec :
    (∀ (natives : List FiveMNative) (w : String),
        findByName natives w = none ↔ ∀ n ∈ natives, nameMatches w n = false) ∧
      (∀ (natives : List FiveMNative) (w : String) (r : FiveMNative),
        findByName natives w = some r ↔
          ∃ pre post, natives = pre ++ r :: post ∧ nameMatches w r = true ∧
            ∀ n ∈ pre, nameMatches w n = false) ∧
      findByName (parseNatives twoFooCatalog) "foo" =
        some { name := "Foo", hash := some "0xAA11", params := some [],
               results := none, description := some "", module := some "moduleA" } := by
  refine ⟨?_, ?_, by decide⟩
  · intro natives w
    rw [findByName, List.find?_eq_none]
    constructor
    · intro h n hn
      have := h n hn
      cases hv : nameMatches w n with
      | false => rfl
      | true => exact absurd hv this
    · intro h n hn
      rw [h n hn]
      simp
  · intro natives w r
    exact find?_eq_some_first (nameMatches w) natives r

/-- Witness for C8: the characterizations of `findByName_spec` applied
at concrete inputs, discharging their hypotheses there. -/
theorem findByName_spec_witness :
    findByName [] "foo" = none ∧
      findByName (parseNatives twoFooCatalog) "foo" =
        some { name := "Foo", hash := some "0xAA11", params := some [],
               results := none, description := some "", module := some "moduleA" } :=
  ⟨(findByName_spec.1 [] "foo").mpr (by intro n hn; simp at hn),
   findByName_spec.2.2⟩

/-- The expression from the documentation-URL construction,
`match.hash?.slice(2) || ""`,
of `provideDefinition` in the unnamed revision (part_000). -/
def hashSuffix : Option String → String
  | none => ""
  | some s => if s.drop 2 = "" then "" else s.drop 2

/-- The function provideDefinition of the unnamed revision (part_000).  The input is
the word under the cursor (`none` when there is no word range); the
output is the externally opened documentation URL, if any, paired with
the value returned to the editor (always `none`, i.e. `undefined`). -/
def provideDefinition (natives : List FiveMNative) (word : Option String) :
    Option String × Option Unit :=
  match word with
  | none => (none, none)
  | some w =>
    match findByName natives w with
    | some m => (some ("https://docs.fivem.net/natives/?_0x" ++ hashSuffix m.hash), none)
    | none => (none, none)

/-- Claim C10: the documentation URL is built from the record's hash with
exactly its first two characters removed, whatever they are, with the
empty string substituted for an absent hash; on a successful lookup the
provider opens exactly that URL; and the provider always returns
`undefined` rather than an editor-internal location. -/
theorem provideDefinition_spec :
    (∀ h : Option String, hashSuffix h = (h.map (fun s => s.drop 2)).getD "") ∧
      (∀ (natives : List FiveMNative) (w : String),
        (provideDefinition natives (some w)).1 =
          (findByName natives w).map
            (fun m => "https://docs.fivem.net/natives/?_0x" ++ hashSuffix m.hash)) ∧
      (∀ (natives : List FiveMNative) (word : Option String),
        (provideDefinition natives word).2 = none) ∧
      hashSuffix (some "0xABCD") = "ABCD" ∧
      hashSuffix (some "ZZABCD") = "ABCD" ∧
      hashSuffix none = "" := by
  refine ⟨?_, ?_, ?_, by decide, by decide, rfl⟩
  · intro h
    cases h with
    | none => rfl
    | some s =>
      by_cases hs : s.drop 2 = "" <;> simp [hashSuffix, hs]
  · intro natives w
    cases hf : findByName natives w <;> simp [provideDefinition, hf]
  · intro natives word
    cases word with
    | none => rfl
    | some w => cases hf : findByName natives w <;> simp [provideDefinition, hf]

end FiveMDevKit
